import Mathlib

/-!
Shallow embedding of the agent orchestration loop and risk validation engine
of the grok-trading-backend repository (src/risk/risk_manager.py and
src/live_main.py), together with theorems settling the documented behavioural
properties of the risk engine, the trade dispatcher and the conversation loop.

Numeric values (prices, cash, portfolio value, timestamps) are modelled as
rationals; Python ints are modelled as Int.  Timestamps are in seconds, so
that the elapsed-minutes computation of the cooldown check is the literal
division by 60 found in the source.  Collaborator calls (market data,
portfolio) are modelled as oracle values of type Except String _, with error
standing for a raised exception.
-/

set_option autoImplicit false

namespace GrokTrading

/-- Distinct rejection/approval reasons, one per f-string of
RiskManager.validate_order. -/
inductive Reason where
  | priceUnavailable
  | notionalBelowMin
  | notionalAboveMax
  | insufficientCash
  | exposureViolation
  | cooldownActive
  | insufficientShares
  | tradeApproved
  | validationError (e : String)
  deriving Repr, DecidableEq

/-- The (is_valid, rejection_reason) pair returned by validate_order. -/
structure RiskDecision where
  approved : Bool
  reason : Reason
  deriving Repr, DecidableEq

/-- The mutable state of a RiskManager instance: the last_trade_times
dictionary, modelled as a total function to Option (absent key = none).
Timestamps are rationals (seconds). -/
structure RiskState where
  last_trade_times : String → Option ℚ

/-- Read-only oracle for the collaborator calls validate_order makes:
market.get_price, portfolio.get_total_value, portfolio.get_cash,
portfolio.get_positions.  An Except.error models a raised exception;
get_price returning none models a falsy (None) price. -/
structure Collab where
  getPrice : Except String (Option ℚ)
  getTotalValue : Except String ℚ
  getCash : Except String ℚ
  getPositions : Except String (String → Int)

/-- self.min_notional = 5000.0 -/
def min_notional : ℚ := 5000

/-- self.max_notional = 25000.0 -/
def max_notional : ℚ := 25000

/-- self.max_position_pct = 0.20 -/
def max_position_pct : ℚ := 20 / 100

/-- self.cooldown_minutes = 30 -/
def cooldown_minutes : ℚ := 30

/-- The state written on approval: self.last_trade_times[ticker] = now. -/
def recordTrade (st : RiskState) (ticker : String) (now : ℚ) : RiskState :=
  ⟨fun t => if t = ticker then some now else st.last_trade_times t⟩

/-- RiskManager.validate_order(ticker, action, shares), src/risk/risk_manager.py
lines 15-67.  Returns the decision together with the state of
last_trade_times after the call.  The try/except wrapping the body is
modelled by turning every collaborator Except.error into the
"Risk Validation Error" rejection with the state unchanged.  A price of 0
is falsy in Python, hence rejected like None. -/
def validate_order (st : RiskState) (now : ℚ) (c : Collab)
    (ticker action : String) (shares : Int) : RiskDecision × RiskState :=
  match c.getPrice with
  | .error e => (⟨false, .validationError e⟩, st)
  | .ok none => (⟨false, .priceUnavailable⟩, st)
  | .ok (some current_price) =>
    if current_price = 0 then (⟨false, .priceUnavailable⟩, st)
    else
      let notional_value : ℚ := (shares : ℚ) * current_price
      match c.getTotalValue with
      | .error e => (⟨false, .validationError e⟩, st)
      | .ok portfolio_val =>
        match c.getCash with
        | .error e => (⟨false, .validationError e⟩, st)
        | .ok cash =>
          -- 1. Size Constraints
          if notional_value < min_notional then (⟨false, .notionalBelowMin⟩, st)
          else if notional_value > max_notional then (⟨false, .notionalAboveMax⟩, st)
          -- 2. Logic Constraints
          else if action = "BUY" then
            if notional_value > cash then (⟨false, .insufficientCash⟩, st)
            else
              match c.getPositions with
              | .error e => (⟨false, .validationError e⟩, st)
              | .ok positions =>
                let current_shares := positions ticker
                let new_total_value := (current_shares : ℚ) * current_price + notional_value
                if new_total_value > portfolio_val * max_position_pct then
                  (⟨false, .exposureViolation⟩, st)
                else
                  match st.last_trade_times ticker with
                  | some last_time =>
                    let elapsed := (now - last_time) / 60
                    if elapsed < cooldown_minutes then (⟨false, .cooldownActive⟩, st)
                    else (⟨true, .tradeApproved⟩, recordTrade st ticker now)
                  | none => (⟨true, .tradeApproved⟩, recordTrade st ticker now)
          else if action = "SELL" then
            match c.getPositions with
            | .error e => (⟨false, .validationError e⟩, st)
            | .ok positions =>
              let owned_shares := positions ticker
              if shares > owned_shares then (⟨false, .insufficientShares⟩, st)
              else (⟨true, .tradeApproved⟩, recordTrade st ticker now)
          else (⟨true, .tradeApproved⟩, recordTrade st ticker now)

/-- The empty cooldown table. -/
def emptyState : RiskState := ⟨fun _ => none⟩

/-- A healthy collaborator snapshot used in concrete scenarios:
price p, total value 100000, cash 100000, positions given by pos. -/
def snap (p : ℚ) (pos : String → Int) : Collab :=
  ⟨.ok (some p), .ok 100000, .ok 100000, .ok pos⟩

/-- One entry of the trades array of a place_trade_orders call:
action, ticker, shares, reason (live_main.py tool schema). -/
structure Trade where
  ticker : String
  action : String
  shares : Int
  reason : String
  deriving Repr, DecidableEq

/-- Observable collaborator invocations made by the place_trade_orders
handler: the risk check, portfolio.execute_trade and journal.log_trade. -/
inductive Event where
  | validateCall (ticker action : String) (shares : Int)
  | execTrade (ticker action : String) (shares : Int)
  | journalLog (ticker action : String) (shares : Int) (price : ℚ)
  deriving Repr, DecidableEq

/-- The rejection text reported for each reason (interpolated numbers of the
original f-strings are abstracted away; the constructors of Reason keep the
branches distinct). -/
def reasonText : Reason → String
  | .priceUnavailable => "Could not fetch price"
  | .notionalBelowMin => "Notional below Min"
  | .notionalAboveMax => "Notional above Max"
  | .insufficientCash => "Insufficient cash"
  | .exposureViolation => "Exposure violation"
  | .cooldownActive => "Cooldown active"
  | .insufficientShares => "Cannot sell more shares than owned"
  | .tradeApproved => "Trade Approved"
  | .validationError e => "Risk Validation Error: " ++ e

/-- The per-order loop of the place_trade_orders handler
(live_main.py lines 509-535): validate, skip on rejection (appending the
rejection text to res_content), otherwise execute the trade, fetch the price
(falsy price coerced to 0.0) and write the journal entry.  The Except in the
third component is .error when market.get_price raises inside the loop, which
aborts the remaining orders (the exception travels to the try/except of
handle_tool_calls); events already produced stay in the trace. -/
def processTrades (now : ℚ) (c : Collab) : RiskState → List Trade →
    List Event × RiskState × Except String String
  | st, [] => ([], st, .ok "")
  | st, t :: rest =>
    let vres := validate_order st now c t.ticker t.action t.shares
    let vEvt := Event.validateCall t.ticker t.action t.shares
    if vres.1.approved = false then
      let r := processTrades now c vres.2 rest
      (vEvt :: r.1, r.2.1,
        match r.2.2 with
        | .ok s => .ok ("Trade " ++ t.ticker ++ " REJECTED: " ++
            reasonText vres.1.reason ++ ". " ++ s)
        | .error e => .error e)
    else
      let eEvt := Event.execTrade t.ticker t.action t.shares
      match c.getPrice with
      | .error e => ([vEvt, eEvt], vres.2, .error e)
      | .ok po =>
        let price := po.getD 0
        let jEvt := Event.journalLog t.ticker t.action t.shares price
        let r := processTrades now c vres.2 rest
        (vEvt :: eEvt :: jEvt :: r.1, r.2.1, r.2.2)

/-- The place_trade_orders handler (live_main.py lines 500-538): cap the batch
at 3 orders, run the per-order loop, and default the result text when no
order was rejected. -/
def place_trade_orders_handler (now : ℚ) (c : Collab) (st : RiskState)
    (trades : List Trade) : List Event × RiskState × Except String String :=
  let capped := if trades.length > 3 then trades.take 3 else trades
  let r := processTrades now c st capped
  match r.2.2 with
  | .error e => (r.1, r.2.1, .error e)
  | .ok s => (r.1, r.2.1,
      .ok (if s.isEmpty then "All orders submitted and logged to journal." else s))

/-- The price recorded in the journal entry: market.get_price with a falsy
result coerced to 0.0 (the "or 0.0" of live_main.py line 523). -/
def journalPrice (c : Collab) : ℚ :=
  match c.getPrice with
  | .ok (some p) => p
  | _ => 0

/-- The per-order event pattern the specification describes: a rejected order
produces only its risk validation and a rejection report, with no portfolio
execution and no journal write; an approved order is validated, executed
against the portfolio, then recorded to the journal. -/
def specOrderEvents (st : RiskState) (now : ℚ) (c : Collab) (t : Trade) :
    List Event :=
  if (validate_order st now c t.ticker t.action t.shares).1.approved then
    [Event.validateCall t.ticker t.action t.shares,
     Event.execTrade t.ticker t.action t.shares,
     Event.journalLog t.ticker t.action t.shares (journalPrice c)]
  else
    [Event.validateCall t.ticker t.action t.shares]

/-- The dispatch trace the specification describes: orders handled in their
given sequence, each contributing its per-order events, with processing
continuing past rejections (the risk state is threaded through). -/
def specTrace (now : ℚ) (c : Collab) : RiskState → List Trade → List Event
  | _, [] => []
  | st, t :: rest =>
    specOrderEvents st now c t ++
      specTrace now c (validate_order st now c t.ticker t.action t.shares).2 rest

/-- The orders that reached risk validation, read off an event trace. -/
def validatedOrders (evts : List Event) : List (String × String × Int) :=
  evts.filterMap fun e =>
    match e with
    | .validateCall tk ac sh => some (tk, ac, sh)
    | _ => none

/-- Char-list prefix test (needle against the front of the haystack). -/
def charsMatch : List Char → List Char → Bool
  | [], _ => true
  | _ :: _, [] => false
  | a :: as, b :: bs => a = b && charsMatch as bs

/-- Substring containment on char lists, the Python "in" operator. -/
def containsSeq (needle : List Char) : List Char → Bool
  | [] => needle.isEmpty
  | c :: rest => charsMatch needle (c :: rest) || containsSeq needle rest

/-- The stop heuristic of run_agent_loop line 241:
"no trade" in (msg.content or "").lower(). -/
def noTradeStop (content : Option String) : Bool :=
  containsSeq "no trade".toList ((content.getD "").toList.map Char.toLower)

/-- Python truthiness test of msg.content (None and the empty string are
falsy). -/
def contentFalsy : Option String → Bool
  | none => true
  | some s => s.isEmpty

/-- Parsed tool-call arguments, as far as the dispatcher inspects them. -/
inductive Args where
  | placeTrades (trades : List Trade)
  | otherArgs
  deriving Repr

/-- A model-issued tool call: id, function name, and the outcome of
json.loads on its argument payload (.error models a raised
JSONDecodeError). -/
structure ToolCall where
  id : String
  fname : String
  argumentsParse : Except String Args
  deriving Repr

/-- Conversation messages, tagged with their role. -/
inductive Msg where
  | system (content : String)
  | user (content : String)
  | assistant (content : Option String) (toolCalls : List ToolCall)
  | tool (tool_call_id : String) (content : String)
  deriving Repr

/-- One model response: optional text plus the tool calls it requests. -/
structure ModelResponse where
  content : Option String
  toolCalls : List ToolCall
  deriving Repr

/-- Environment of one dispatch: the collaborator snapshot and clock used by
the risk engine, and the result text of the handlers other than
place_trade_orders (they read collaborators and report back, but never touch
the risk state; any exception they raise is already converted to a Tool Error
string by the per-call try/except). -/
structure ToolOracle where
  collab : Collab
  now : ℚ
  otherResult : String → Args → String

/-- The body of the try block of handle_tool_calls for one parsed call:
route place_trade_orders to its handler (converting a raised exception into
the Tool Error text of the except clause), every other function name to its
own handler. -/
def dispatch_tool (o : ToolOracle) (st : RiskState) (fname : String)
    (args : Args) : String × RiskState :=
  if fname = "place_trade_orders" then
    let ts := match args with
      | .placeTrades ts => ts
      | .otherArgs => []
    let r := place_trade_orders_handler o.now o.collab st ts
    match r.2.2 with
    | .ok s => (s, r.2.1)
    | .error e => ("Tool Error: " ++ e, r.2.1)
  else
    (o.otherResult fname args, st)

/-- LiveTrader.handle_tool_calls (live_main.py lines 413-647): for each call,
json.loads the argument payload (OUTSIDE the try block, so a parse failure
propagates and no tool message is appended), then dispatch inside the try and
append one tool-role message with the call id. -/
def handle_tool_calls (o : ToolOracle) : List ToolCall → List Msg → RiskState →
    Except String (List Msg × RiskState)
  | [], msgs, st => .ok (msgs, st)
  | tc :: rest, msgs, st =>
    match tc.argumentsParse with
    | .error e => .error e
    | .ok args =>
      let r := dispatch_tool o st tc.fname args
      handle_tool_calls o rest (msgs ++ [Msg.tool tc.id r.1]) r.2

/-- MAX_TURNS = 10 (live_main.py line 214). -/
def MAX_TURNS : Nat := 10

/-- The turn loop of LiveTrader.run_agent_loop (lines 215-242).  The agent
argument scripts the chat-completions endpoint: response of the n-th request,
or .error for an API exception (caught, ends the loop).  Returns the final
message list, risk state and the number of model requests made; the result is
.error when an exception escapes handle_tool_calls. -/
def run_loop (agent : Nat → Except String ModelResponse) (o : ToolOracle) :
    Nat → Nat → List Msg → RiskState → Except String (List Msg × RiskState × Nat)
  | 0, calls, msgs, st => .ok (msgs, st, calls)
  | fuel + 1, calls, msgs, st =>
    match agent calls with
    | .error _ => .ok (msgs, st, calls + 1)
    | .ok m =>
      if contentFalsy m.content && m.toolCalls.isEmpty then
        .ok (msgs, st, calls + 1)
      else
        let msgs2 := msgs ++ [Msg.assistant m.content m.toolCalls]
        if m.toolCalls.isEmpty then
          if noTradeStop m.content then .ok (msgs2, st, calls + 1)
          else run_loop agent o fuel (calls + 1) msgs2 st
        else
          match handle_tool_calls o m.toolCalls msgs2 st with
          | .error e => .error e
          | .ok (msgs3, st2) => run_loop agent o fuel (calls + 1) msgs3 st2

/-- LiveTrader.run_agent_loop: seed the history with the system and user
prompts and run at most MAX_TURNS model turns. -/
def run_agent_loop (agent : Nat → Except String ModelResponse) (o : ToolOracle)
    (sys usr : String) (st : RiskState) :
    Except String (List Msg × RiskState × Nat) :=
  run_loop agent o MAX_TURNS 0 [Msg.system sys, Msg.user usr] st

/-- A fixed dispatch environment for the concrete scenarios below. -/
def oracle0 : ToolOracle :=
  ⟨snap 100 (fun _ => 0), 0, fun _ _ => "ok"⟩

/-- A tool call whose argument payload is not valid JSON: json.loads raises. -/
def tcBad : ToolCall :=
  ⟨"call_2", "get_stock_price", .error "Expecting value"⟩

/-- Scripted model: the first response requests the malformed tool call. -/
def agentBad : Nat → Except String ModelResponse :=
  fun n => if n = 0 then .ok ⟨none, [tcBad]⟩ else .error "session over"

/-- Scripted model: plain text without the stop phrase, then a no-trade
text. -/
def agentText : Nat → Except String ModelResponse :=
  fun n =>
    if n = 0 then .ok ⟨some "Scanning the market for setups.", []⟩
    else if n = 1 then .ok ⟨some "No trade today.", []⟩
    else .error "session over"

/-- Scripted model: a no-trade text right away. -/
def agentNoTrade : Nat → Except String ModelResponse :=
  fun n => if n = 0 then .ok ⟨some "No trade today.", []⟩ else .error "session over"

/-- Four orders, one more than the batch cap admits. -/
def trades4 : List Trade :=
  [⟨"NVDA", "BUY", 10, "r1"⟩, ⟨"AAPL", "BUY", 20, "r2"⟩,
   ⟨"MSFT", "SELL", 30, "r3"⟩, ⟨"TSLA", "BUY", 40, "r4"⟩]

/-- Every run of validate_order either rejects and leaves last_trade_times
unchanged, or approves and records now for the validated ticker. -/
theorem validate_order_cases (st : RiskState) (now : ℚ) (c : Collab)
    (tk ac : String) (sh : Int) :
    ((validate_order st now c tk ac sh).1.approved = false ∧
      (validate_order st now c tk ac sh).2 = st) ∨
    ((validate_order st now c tk ac sh).1.approved = true ∧
      (validate_order st now c tk ac sh).2 = recordTrade st tk now) := by
  unfold validate_order
  repeat (first
    | exact Or.inl ⟨rfl, rfl⟩
    | exact Or.inr ⟨rfl, rfl⟩
    | split
    | dsimp only)

/-- An approval is only reachable after get_price returned a truthy price. -/
theorem approved_price_ok (st : RiskState) (now : ℚ) (c : Collab)
    (tk ac : String) (sh : Int)
    (h : (validate_order st now c tk ac sh).1.approved = true) :
    ∃ p, c.getPrice = .ok (some p) ∧ p ≠ 0 := by
  unfold validate_order at h
  cases hp : c.getPrice with
  | error e => rw [hp] at h; dsimp only at h; simp at h
  | ok op =>
    cases op with
    | none => rw [hp] at h; dsimp only at h; simp at h
    | some p =>
      rw [hp] at h
      by_cases h0 : p = 0
      · dsimp only at h; simp [h0] at h
      · exact ⟨p, rfl, h0⟩

/-- Claim C6: any order whose notional (shares times fetched price) lies
strictly below min_notional or strictly above max_notional is rejected,
whatever the action, the cooldown table and the remaining portfolio state. -/
theorem notional_bounds_reject (st : RiskState) (now : ℚ) (c : Collab)
    (tk ac : String) (sh : Int) (p : ℚ)
    (hp : c.getPrice = .ok (some p))
    (h : (sh : ℚ) * p < min_notional ∨ max_notional < (sh : ℚ) * p) :
    (validate_order st now c tk ac sh).1.approved = false := by
  unfold validate_order
  rw [hp]
  dsimp only
  rcases eq_or_ne p 0 with h0 | h0
  · simp [h0]
  rw [if_neg h0]
  cases hv : c.getTotalValue with
  | error e => rfl
  | ok pv =>
    cases hc : c.getCash with
    | error e => rfl
    | ok cash =>
      dsimp only
      split_ifs <;>
        first
          | rfl
          | (exfalso; rcases h with h | h <;> linarith)

/-- Witness for C6: BUY of 1 share at price 100 (notional 100 below the 5000
minimum) is rejected. -/
theorem notional_bounds_reject_witness :
    (validate_order emptyState 0 (snap 100 (fun _ => 0)) "AAPL" "BUY" 1).1.approved
      = false :=
  notional_bounds_reject emptyState 0 (snap 100 (fun _ => 0)) "AAPL" "BUY" 1 100
    rfl (Or.inl (by norm_num [min_notional]))

/-- Claim C1, amended: last_trade_times is written (for the validated ticker,
to now) exactly when the decision is approved, for every action, not only for
BUY; an approved SELL updates the table as well. -/
theorem cooldown_written_iff_approved (st : RiskState) (now : ℚ) (c : Collab)
    (tk ac : String) (sh : Int) :
    (validate_order st now c tk ac sh).2 =
      (if (validate_order st now c tk ac sh).1.approved = true
        then recordTrade st tk now else st) := by
  rcases validate_order_cases st now c tk ac sh with ⟨ha, hs⟩ | ⟨ha, hs⟩ <;>
    rw [ha, hs] <;> simp

/-- Counterexample to claim C1 as stated: an approved SELL (60 shares owned,
60 sold, notional 6000 inside the bounds) writes now into last_trade_times
for the ticker, which was previously absent. -/
theorem approved_sell_updates_cooldown :
    (validate_order emptyState 0 (snap 100 (fun _ => 60)) "AAPL" "SELL" 60).1.approved
        = true ∧
    emptyState.last_trade_times "AAPL" = none ∧
    (validate_order emptyState 0 (snap 100 (fun _ => 60)) "AAPL" "SELL" 60).2.last_trade_times "AAPL"
        = some 0 := by
  refine ⟨?_, rfl, ?_⟩ <;>
    · norm_num [validate_order, snap, min_notional, max_notional, emptyState, recordTrade]
      rfl

/-- Claim C7: every rejecting run of validate_order, including the paths where
a collaborator raised, leaves the cooldown table exactly as it was. -/
theorem rejected_leaves_state (st : RiskState) (now : ℚ) (c : Collab)
    (tk ac : String) (sh : Int)
    (h : (validate_order st now c tk ac sh).1.approved = false) :
    (validate_order st now c tk ac sh).2 = st := by
  rcases validate_order_cases st now c tk ac sh with ⟨_, hs⟩ | ⟨ha, _⟩
  · exact hs
  · rw [ha] at h; simp at h

/-- Witness for C7: a rejected SELL (nothing owned) leaves the empty table
empty. -/
theorem rejected_leaves_state_witness :
    (validate_order emptyState 0 (snap 100 (fun _ => 0)) "MSFT" "SELL" 1).2
      = emptyState :=
  rejected_leaves_state emptyState 0 (snap 100 (fun _ => 0)) "MSFT" "SELL" 1
    (by norm_num [validate_order, snap, min_notional, emptyState])

/-- Claim C10: a validate_order call for ticker tk never changes the cooldown
entry of any other ticker. -/
theorem other_tickers_unchanged (st : RiskState) (now : ℚ) (c : Collab)
    (tk ac : String) (sh : Int) (t : String) (h : t ≠ tk) :
    (validate_order st now c tk ac sh).2.last_trade_times t
      = st.last_trade_times t := by
  rcases validate_order_cases st now c tk ac sh with ⟨_, hs⟩ | ⟨_, hs⟩ <;> rw [hs]
  simp [recordTrade, h]

/-- Witness for C10: an approved AAPL validation leaves the MSFT entry as it
was. -/
theorem other_tickers_unchanged_witness :
    (validate_order emptyState 0 (snap 100 (fun _ => 60)) "AAPL" "SELL" 60).2.last_trade_times "MSFT"
      = emptyState.last_trade_times "MSFT" :=
  other_tickers_unchanged emptyState 0 (snap 100 (fun _ => 60)) "AAPL" "SELL" 60
    "MSFT" (by decide)

/-- Claim C4, amended: a SELL of more shares than owned is always rejected,
and the reason is the ownership reason when the price is available and the
notional lies inside the bounds (the notional checks run first, so outside
the bounds the rejection carries their reason instead); a SELL of exactly the
owned shares with the notional inside the bounds is approved. -/
theorem sell_ownership (st : RiskState) (now : ℚ) (c : Collab) (tk : String)
    (sh : Int) (p pv cash : ℚ) (pos : String → Int)
    (hp : c.getPrice = .ok (some p)) (h0 : p ≠ 0)
    (hv : c.getTotalValue = .ok pv) (hc : c.getCash = .ok cash)
    (hpos : c.getPositions = .ok pos) :
    (sh > pos tk → (validate_order st now c tk "SELL" sh).1.approved = false) ∧
    (min_notional ≤ (sh : ℚ) * p → (sh : ℚ) * p ≤ max_notional →
      ((sh > pos tk →
          validate_order st now c tk "SELL" sh = (⟨false, .insufficientShares⟩, st)) ∧
       (sh = pos tk →
          validate_order st now c tk "SELL" sh =
            (⟨true, .tradeApproved⟩, recordTrade st tk now)))) := by
  have hred : validate_order st now c tk "SELL" sh =
      (if (sh : ℚ) * p < min_notional then (⟨false, .notionalBelowMin⟩, st)
       else if (sh : ℚ) * p > max_notional then (⟨false, .notionalAboveMax⟩, st)
       else if sh > pos tk then (⟨false, .insufficientShares⟩, st)
       else (⟨true, .tradeApproved⟩, recordTrade st tk now)) := by
    unfold validate_order
    rw [hp]
    dsimp only
    rw [if_neg h0, hv]
    dsimp only
    rw [hc]
    dsimp only
    rw [hpos]
    dsimp only
    rw [if_neg (show ("SELL" : String) ≠ "BUY" by decide),
      if_pos (show ("SELL" : String) = "SELL" from rfl)]
  constructor
  · intro hgt
    rw [hred]
    split_ifs <;> rfl
  · intro hmin hmax
    constructor
    · intro hgt
      rw [hred]
      split_ifs <;> first | rfl | omega | linarith
    · intro heq
      rw [hred]
      split_ifs <;> first | rfl | omega | linarith

/-- Witness for C4: selling exactly the 60 shares owned at price 100
(notional 6000) is approved and stamps the cooldown table. -/
theorem sell_ownership_witness :
    validate_order emptyState 0 (snap 100 (fun _ => 60)) "AAPL" "SELL" 60 =
      (⟨true, .tradeApproved⟩, recordTrade emptyState "AAPL" 0) :=
  ((sell_ownership emptyState 0 (snap 100 (fun _ => 60)) "AAPL" 60 100 100000
      100000 (fun _ => 60) rfl (by norm_num) rfl rfl rfl).2
    (by norm_num [min_notional]) (by norm_num [max_notional])).2 rfl

/-- Counterexample to claim C4 as stated: SELL 50 MSFT with 0 shares owned at
price 10 (notional 500, below the minimum) is rejected with the notional
reason, not the ownership reason, so the rejection reason is not independent
of the notional. -/
theorem sell_ownership_reason_cex :
    (50 : Int) > 0 ∧
    (validate_order emptyState 0 (snap 10 (fun _ => 0)) "MSFT" "SELL" 50).1 =
      ⟨false, .notionalBelowMin⟩ ∧
    Reason.notionalBelowMin ≠ Reason.insufficientShares := by
  refine ⟨by norm_num, ?_, by decide⟩
  norm_num [validate_order, snap, min_notional, emptyState]

/-- Claim C5, amended: a BUY on a ticker with a cooldown entry younger than
cooldown_minutes is always rejected, and the rejection carries the cooldown
reason when the earlier checks (price, notional bounds, cash, exposure) all
pass; once the elapsed minutes reach the window, an otherwise-valid BUY is
approved. -/
theorem buy_cooldown (st : RiskState) (now lt : ℚ) (c : Collab) (tk : String)
    (sh : Int) (hlast : st.last_trade_times tk = some lt) :
    ((now - lt) / 60 < cooldown_minutes →
      (validate_order st now c tk "BUY" sh).1.approved = false) ∧
    (∀ p pv cash : ℚ, ∀ pos : String → Int,
      c.getPrice = .ok (some p) → p ≠ 0 →
      c.getTotalValue = .ok pv → c.getCash = .ok cash →
      c.getPositions = .ok pos →
      min_notional ≤ (sh : ℚ) * p → (sh : ℚ) * p ≤ max_notional →
      (sh : ℚ) * p ≤ cash →
      (pos tk : ℚ) * p + (sh : ℚ) * p ≤ pv * max_position_pct →
      (((now - lt) / 60 < cooldown_minutes →
          validate_order st now c tk "BUY" sh = (⟨false, .cooldownActive⟩, st)) ∧
       (cooldown_minutes ≤ (now - lt) / 60 →
          validate_order st now c tk "BUY" sh =
            (⟨true, .tradeApproved⟩, recordTrade st tk now)))) := by
  constructor
  · intro hcd
    unfold validate_order
    rw [hlast]
    cases hp : c.getPrice with
    | error e => rfl
    | ok op =>
      cases op with
      | none => rfl
      | some p =>
        dsimp only
        rcases eq_or_ne p 0 with h0 | h0
        · simp [h0]
        rw [if_neg h0]
        cases hv : c.getTotalValue with
        | error e => rfl
        | ok pv =>
          cases hc : c.getCash with
          | error e => rfl
          | ok cash =>
            dsimp only
            cases hpos : c.getPositions with
            | error e => split_ifs <;> first | rfl | simp_all
            | ok pos =>
              dsimp only
              split_ifs <;> first | rfl | simp_all
  · intro p pv cash pos hp h0 hv hc hpos hmin hmax hcash hexp
    have hred : validate_order st now c tk "BUY" sh =
        (if (now - lt) / 60 < cooldown_minutes then (⟨false, .cooldownActive⟩, st)
         else (⟨true, .tradeApproved⟩, recordTrade st tk now)) := by
      unfold validate_order
      rw [hp]
      dsimp only
      rw [if_neg h0, hv]
      dsimp only
      rw [hc]
      dsimp only
      rw [hpos]
      dsimp only
      rw [hlast]
      split_ifs <;> first | rfl | linarith | simp_all
    constructor
    · intro hcd
      rw [hred, if_pos hcd]
    · intro hcd
      rw [hred, if_neg (by linarith)]

/-- Witness for C5: BUY 100 at price 150, 60 minutes after the recorded
trade, passes every check and is approved with the table restamped. -/
theorem buy_cooldown_witness :
    validate_order (recordTrade emptyState "AAPL" 0) 3600 (snap 150 (fun _ => 0))
        "AAPL" "BUY" 100 =
      (⟨true, .tradeApproved⟩, recordTrade (recordTrade emptyState "AAPL" 0) "AAPL" 3600) :=
  ((buy_cooldown (recordTrade emptyState "AAPL" 0) 3600 0 (snap 150 (fun _ => 0))
      "AAPL" 100 rfl).2 150 100000 100000 (fun _ => 0) rfl (by norm_num) rfl rfl rfl
    (by norm_num [min_notional]) (by norm_num [max_notional]) (by norm_num)
    (by norm_num [max_position_pct])).2 (by norm_num [cooldown_minutes])

/-- Counterexample to claim C5 as stated: a BUY inside the cooldown window
(entry at 0, now 300 seconds, 5 elapsed minutes) whose notional 100 is below
the minimum is rejected with the notional reason, not the cooldown reason. -/
theorem buy_cooldown_reason_cex :
    (RiskState.mk (fun _ => some 0)).last_trade_times "AAPL" = some 0 ∧
    ((300 : ℚ) - 0) / 60 < cooldown_minutes ∧
    (validate_order ⟨fun _ => some 0⟩ 300 (snap 100 (fun _ => 0)) "AAPL" "BUY" 1).1 =
      ⟨false, .notionalBelowMin⟩ ∧
    Reason.notionalBelowMin ≠ Reason.cooldownActive := by
  refine ⟨rfl, by norm_num [cooldown_minutes], ?_, by decide⟩
  norm_num [validate_order, snap, min_notional, emptyState]

/-- A validateCall event prepended to a trace contributes its order. -/
theorem validatedOrders_validate_cons (tk ac : String) (sh : Int)
    (evts : List Event) :
    validatedOrders (Event.validateCall tk ac sh :: evts) =
      (tk, ac, sh) :: validatedOrders evts := by
  simp [validatedOrders, List.filterMap_cons]

/-- An execTrade event contributes nothing to the validated orders. -/
theorem validatedOrders_exec_cons (tk ac : String) (sh : Int)
    (evts : List Event) :
    validatedOrders (Event.execTrade tk ac sh :: evts) = validatedOrders evts := by
  simp [validatedOrders, List.filterMap_cons]

/-- A journalLog event contributes nothing to the validated orders. -/
theorem validatedOrders_journal_cons (tk ac : String) (sh : Int) (p : ℚ)
    (evts : List Event) :
    validatedOrders (Event.journalLog tk ac sh p :: evts) = validatedOrders evts := by
  simp [validatedOrders, List.filterMap_cons]

/-- The per-order loop validates every order it is given, in order, exactly
once. -/
theorem processTrades_validated (now : ℚ) (c : Collab) :
    ∀ (ts : List Trade) (st : RiskState),
      validatedOrders (processTrades now c st ts).1 =
        ts.map (fun t => (t.ticker, t.action, t.shares)) := by
  intro ts
  induction ts with
  | nil => intro st; rfl
  | cons t rest ih =>
    intro st
    simp only [processTrades]
    by_cases happ :
        (validate_order st now c t.ticker t.action t.shares).1.approved = false
    · rw [if_pos happ]
      dsimp only
      rw [validatedOrders_validate_cons, ih, List.map_cons]
    · rw [if_neg happ]
      have happ' : (validate_order st now c t.ticker t.action t.shares).1.approved
          = true := by simpa using happ
      obtain ⟨p, hp, -⟩ := approved_price_ok st now c t.ticker t.action t.shares happ'
      rw [hp]
      dsimp only
      rw [validatedOrders_validate_cons, validatedOrders_exec_cons,
        validatedOrders_journal_cons, ih, List.map_cons]

/-- The per-order loop produces exactly the event trace the specification
describes for its input list. -/
theorem processTrades_spec (now : ℚ) (c : Collab) :
    ∀ (ts : List Trade) (st : RiskState),
      (processTrades now c st ts).1 = specTrace now c st ts := by
  intro ts
  induction ts with
  | nil => intro st; rfl
  | cons t rest ih =>
    intro st
    simp only [processTrades, specTrace, specOrderEvents]
    by_cases happ :
        (validate_order st now c t.ticker t.action t.shares).1.approved = false
    · rw [if_pos happ, if_neg (by simp [happ])]
      dsimp only
      rw [ih, List.singleton_append]
    · rw [if_neg happ]
      have happ' : (validate_order st now c t.ticker t.action t.shares).1.approved
          = true := by simpa using happ
      obtain ⟨p, hp, -⟩ := approved_price_ok st now c t.ticker t.action t.shares happ'
      rw [hp, if_pos happ']
      dsimp only
      rw [ih]
      simp [journalPrice, hp]

/-- Claim C8: when more than 3 orders arrive in one place_trade_orders call,
exactly the first 3, in their given order, reach risk validation; the rest
are dropped before any validation. -/
theorem batch_cap (now : ℚ) (c : Collab) (st : RiskState) (trades : List Trade)
    (h : trades.length > 3) :
    validatedOrders (place_trade_orders_handler now c st trades).1 =
      (trades.take 3).map (fun t => (t.ticker, t.action, t.shares)) := by
  unfold place_trade_orders_handler
  rw [if_pos h]
  dsimp only
  cases hE : (processTrades now c st (trades.take 3)).2.2 with
  | error e => dsimp only; exact processTrades_validated now c (trades.take 3) st
  | ok s => dsimp only; exact processTrades_validated now c (trades.take 3) st

/-- Witness for C8: of four submitted orders only the first three are
validated. -/
theorem batch_cap_witness :
    validatedOrders
        (place_trade_orders_handler 0 (snap 100 (fun _ => 0)) emptyState trades4).1 =
      [("NVDA", "BUY", (10 : Int)), ("AAPL", "BUY", 20), ("MSFT", "SELL", 30)] :=
  (batch_cap 0 (snap 100 (fun _ => 0)) emptyState trades4 (by decide)).trans rfl

/-- Claim C9: the collaborator-event trace of one place_trade_orders call is
exactly the specified one: per order, a rejected order yields only its risk
validation (no portfolio execution, no journal write) and processing
continues with the remaining orders; an approved order is validated, executed
against the portfolio, then journaled. -/
theorem dispatch_trade_events (now : ℚ) (c : Collab) (st : RiskState)
    (trades : List Trade) :
    (place_trade_orders_handler now c st trades).1 =
      specTrace now c st (trades.take 3) := by
  unfold place_trade_orders_handler
  by_cases h : trades.length > 3
  · rw [if_pos h]
    dsimp only
    cases hE : (processTrades now c st (trades.take 3)).2.2 with
    | error e => dsimp only; exact processTrades_spec now c (trades.take 3) st
    | ok s => dsimp only; exact processTrades_spec now c (trades.take 3) st
  · rw [if_neg h]
    rw [List.take_of_length_le (by omega)]
    dsimp only
    cases hE : (processTrades now c st trades).2.2 with
    | error e => dsimp only; exact processTrades_spec now c trades st
    | ok s => dsimp only; exact processTrades_spec now c trades st

/-- Claim C2, observed at the failing input: a tool call whose argument
payload does not parse (json.loads is line 416, before the try of line 419)
makes the exception escape handle_tool_calls, so no tool message is appended
for the call id and run_agent_loop aborts instead of continuing. -/
theorem malformed_args_abort :
    handle_tool_calls oracle0 [tcBad] [] emptyState = .error "Expecting value" ∧
    run_agent_loop agentBad oracle0 "sys" "usr" emptyState = .error "Expecting value" :=
  ⟨rfl, rfl⟩

/-- Counterexample to claim C3 as stated: the first model response carries
text and no tool calls, yet the loop requests a second model turn (the run
makes 2 model calls, terminating only at the later no-trade text). -/
theorem text_without_no_trade_continues :
    agentText 0 = .ok ⟨some "Scanning the market for setups.", []⟩ ∧
    run_agent_loop agentText oracle0 "sys" "usr" emptyState =
      .ok ([Msg.system "sys", Msg.user "usr",
            Msg.assistant (some "Scanning the market for setups.") [],
            Msg.assistant (some "No trade today.") []], emptyState, 2) :=
  ⟨rfl, rfl⟩

/-- Any completed run made at least as many model calls as it started with. -/
theorem run_loop_calls_le (agent : Nat → Except String ModelResponse)
    (o : ToolOracle) :
    ∀ (fuel calls : Nat) (msgs : List Msg) (st : RiskState)
      (ms : List Msg) (s2 : RiskState) (n : Nat),
      run_loop agent o fuel calls msgs st = .ok (ms, s2, n) → calls ≤ n := by
  intro fuel
  induction fuel with
  | zero =>
    intro calls msgs st ms s2 n h
    simp only [run_loop, Except.ok.injEq, Prod.mk.injEq] at h
    omega
  | succ fuel ih =>
    intro calls msgs st ms s2 n h
    simp only [run_loop] at h
    cases hA : agent calls with
    | error e =>
      rw [hA] at h
      simp only [Except.ok.injEq, Prod.mk.injEq] at h
      omega
    | ok m =>
      rw [hA] at h
      dsimp only at h
      split at h
      · simp only [Except.ok.injEq, Prod.mk.injEq] at h
        omega
      · split at h
        · split at h
          · simp only [Except.ok.injEq, Prod.mk.injEq] at h
            omega
          · exact le_trans (Nat.le_succ calls) (ih _ _ _ _ _ _ h)
        · split at h
          · cases h
          · exact le_trans (Nat.le_succ calls) (ih _ _ _ _ _ _ h)

/-- With fuel left, a completed run made strictly more model calls than it
started with. -/
theorem run_loop_calls_lt (agent : Nat → Except String ModelResponse)
    (o : ToolOracle) (fuel calls : Nat) (msgs : List Msg) (st : RiskState)
    (ms : List Msg) (s2 : RiskState) (n : Nat) (hf : 0 < fuel)
    (h : run_loop agent o fuel calls msgs st = .ok (ms, s2, n)) : calls < n := by
  cases fuel with
  | zero => exact absurd hf (lt_irrefl 0)
  | succ fuel =>
    simp only [run_loop] at h
    cases hA : agent calls with
    | error e =>
      rw [hA] at h
      simp only [Except.ok.injEq, Prod.mk.injEq] at h
      omega
    | ok m =>
      rw [hA] at h
      dsimp only at h
      split at h
      · simp only [Except.ok.injEq, Prod.mk.injEq] at h
        omega
      · split at h
        · split at h
          · simp only [Except.ok.injEq, Prod.mk.injEq] at h
            omega
          · have := run_loop_calls_le agent o fuel (calls + 1) _ _ _ _ _ h
            omega
        · split at h
          · cases h
          · have := run_loop_calls_le agent o fuel (calls + 1) _ _ _ _ _ h
            omega

/-- Claim C3, amended: a first response carrying non-empty text and no tool
calls is terminal exactly when the text contains the case-insensitive phrase
no trade; with the phrase the run ends after that single model call, without
it the loop requests at least a second model turn, so absence of tool calls
alone does not end the loop. -/
theorem no_toolcalls_terminal_iff_no_trade (agent : Nat → Except String ModelResponse)
    (o : ToolOracle) (sys usr : String) (st : RiskState) (m : ModelResponse)
    (s : String) (h0 : agent 0 = .ok m) (htc : m.toolCalls = [])
    (hct : m.content = some s) (hne : s.isEmpty = false) :
    (noTradeStop m.content = true →
      run_agent_loop agent o sys usr st =
        .ok ([Msg.system sys, Msg.user usr, Msg.assistant (some s) []], st, 1)) ∧
    (noTradeStop m.content = false →
      ∀ (ms : List Msg) (s2 : RiskState) (n : Nat),
        run_agent_loop agent o sys usr st = .ok (ms, s2, n) → 2 ≤ n) := by
  obtain ⟨ct, tc⟩ := m
  simp only at htc hct
  subst htc hct
  constructor
  · intro hstop
    unfold run_agent_loop
    rw [show MAX_TURNS = 9 + 1 from rfl]
    simp only [run_loop]
    rw [h0]
    dsimp only
    simp only [contentFalsy, hne, List.isEmpty_nil, Bool.false_and, Bool.and_true,
      Bool.false_eq_true, if_false, if_true, hstop]
    rfl
  · intro hstop
    intro ms s2 n h
    unfold run_agent_loop at h
    rw [show MAX_TURNS = 9 + 1 from rfl] at h
    simp only [run_loop] at h
    rw [h0] at h
    dsimp only at h
    simp only [contentFalsy, hne, List.isEmpty_nil, Bool.false_and, Bool.and_true,
      Bool.false_eq_true, if_false, if_true, hstop] at h
    have := run_loop_calls_lt agent o 9 1 _ st _ _ _ (by omega) h
    omega

/-- Witness for C3: a first response reading no trade today ends the run
after exactly one model call. -/
theorem no_toolcalls_terminal_iff_no_trade_witness :
    run_agent_loop agentNoTrade oracle0 "sys" "usr" emptyState =
      .ok ([Msg.system "sys", Msg.user "usr",
            Msg.assistant (some "No trade today.") []], emptyState, 1) :=
  (no_toolcalls_terminal_iff_no_trade agentNoTrade oracle0 "sys" "usr" emptyState
    ⟨some "No trade today.", []⟩ "No trade today." rfl rfl rfl rfl).1 rfl

end GrokTrading
